import Mathlib

/-!
# Task manager: REST handlers and browser client

A shallow embedding of `backend/server.js` (the four `/api/tasks` handlers) and of
`frontend/script.js` (the `TaskManager` controller), followed by the properties
proved about them.

The document store (the Mongoose model `Task` over MongoDB) is an external
collaborator.  It is represented by the collection contents (`List Task`, in
natural order, i.e. insertion order) and by the documented behaviour of the
four model calls the handlers make.  Two points on which releases of the
collaborator differ are left as parameters (`Mongoose`).  Everything the
server cannot determine from the request (clock, generated identifier,
reachability of the storage) is an explicit per-request input (`Sys`).
-/

namespace TaskManager

/-! ## Data model -/

/-- JSON values, as left in `req.body` by `express.json()`.  Numbers are the
integer-valued ones, printed in plain decimal. -/
inductive Json where
  | null
  | bool (b : Bool)
  | num (n : Int)
  | str (s : String)
  | arr (items : List Json)
  | obj (fields : List (String × Json))

/-- A parsed JSON object: its members.  A request without a JSON body has the
empty object. -/
abbrev JsonObject := List (String × Json)

/-- Property access `o.key`; `none` is JavaScript `undefined`. -/
def JsonObject.get (o : JsonObject) (key : String) : Option Json :=
  o.lookup key

/-- The value of a document identifier (a BSON ObjectId), kept abstract. -/
abbrev ObjectId := Nat

/-- A stored task document, `taskSchema` plus the `_id` every document has.
`completed` is `none` when the stored value is `null`; `createdAt` is a
`Date` in milliseconds. -/
structure Task where
  _id : ObjectId
  title : String
  completed : Option Bool
  createdAt : Nat
  deriving DecidableEq, Repr

/-- Behaviour of the storage collaborator that depends on its release.
`castObjectId` is the cast of a path parameter to an ObjectId (`none`: the
cast fails); `omitUndefined` tells whether an `undefined` value is dropped
from an update (otherwise it is written as `null`). -/
structure Mongoose where
  castObjectId : String → Option ObjectId
  omitUndefined : Bool

/-- What one request finds on the server side: the value of `Date.now()`, the
ObjectId generated for a new document, and whether the storage operation
fails (storage unreachable). -/
structure Sys where
  now : Nat
  newId : ObjectId
  storageDown : Bool
  deriving DecidableEq, Repr

/-- Errors thrown by the model calls. -/
inductive StoreError where
  | validation
  | cast
  | duplicateKey
  | unavailable
  deriving DecidableEq, Repr

/-- The text in an `{ error: ... }` body: the literal `'Task not found'` or
`error.message` of a caught error. -/
inductive ErrorMessage where
  | taskNotFound
  | ofError (e : StoreError)
  deriving DecidableEq, Repr

/-- Response bodies of the task routes. -/
inductive Body where
  | tasks (ts : List Task)
  | task (t : Task)
  | error (m : ErrorMessage)
  | empty
  deriving DecidableEq, Repr

/-- An HTTP response: status code and body. -/
structure Response where
  status : Nat
  body : Body
  deriving DecidableEq, Repr

/-- Does the body have the shape `{ error }`? -/
def Body.isError : Body → Bool
  | .error _ => true
  | _ => false

/-! ## Storage collaborator -/

/-- Outcome of casting a value to the schema type `String`. -/
inductive Cast (α : Type) where
  | absent
  | value (a : α)
  | failed
  deriving DecidableEq, Repr

/-- Cast to `String` (schema path `title`): `null`/`undefined` stay as they
are, strings are kept, numbers and booleans are printed, an object with a
non-empty string `_id` gives that string, other objects and arrays fail. -/
def castString : Option Json → Cast String
  | none => .absent
  | some .null => .absent
  | some (.str s) => .value s
  | some (.num n) => .value (toString n)
  | some (.bool b) => .value (if b then "true" else "false")
  | some (.arr _) => .failed
  | some (.obj fields) =>
    match fields.lookup "_id" with
    | some (.str s) => if s = "" then .failed else .value s
    | _ => .failed

/-- Cast to `Boolean` (schema path `completed`): the values converted to
`true` are `true, 'true', 1, '1', 'yes'`, those converted to `false` are
`false, 'false', 0, '0', 'no'`; `null` stays `null`; anything else fails. -/
def castBoolean : Json → Cast Bool
  | .bool b => .value b
  | .null => .absent
  | .num n => if n = 1 then .value true else if n = 0 then .value false else .failed
  | .str s =>
    if s = "true" ∨ s = "1" ∨ s = "yes" then .value true
    else if s = "false" ∨ s = "0" ∨ s = "no" then .value false
    else .failed
  | .arr _ => .failed
  | .obj _ => .failed

/-- A document built by `new Task(...)`, not yet validated. -/
structure Draft where
  _id : ObjectId
  title : Cast String
  completed : Option Bool
  createdAt : Nat

/-- The constructor call `new Task({ title })`: the title is cast, `completed` and `createdAt` take
their schema defaults (`false`, `Date.now`), `_id` is generated. -/
def Task.new (sys : Sys) (title : Option Json) : Draft :=
  { _id := sys.newId, title := castString title, completed := some false,
    createdAt := sys.now }

/-- Schema validation run by `save()`: a failed cast is a validation error;
`required: true` on a string path rejects `null`, `undefined` and `''`. -/
def Draft.validate (d : Draft) : Except StoreError Task :=
  match d.title with
  | .failed => .error .validation
  | .absent => .error .validation
  | .value s =>
    if s = "" then .error .validation
    else .ok { _id := d._id, title := s, completed := d.completed, createdAt := d.createdAt }

/-- The lookup `Task.findById`: the document with this `_id`, if any. -/
def findById (db : List Task) (oid : ObjectId) : Option Task :=
  db.find? (fun t => t._id == oid)

/-- The call `task.save()`: validate, then insert; the insert fails when the storage is
unreachable or the `_id` is already taken (unique index on `_id`). -/
def Draft.save (sys : Sys) (db : List Task) (d : Draft) : Except StoreError (List Task × Task) :=
  match d.validate with
  | .error e => .error e
  | .ok t =>
    if sys.storageDown then .error .unavailable
    else if (findById db t._id).isSome then .error .duplicateKey
    else .ok (db ++ [t], t)

/-- Insert `a` into a list ordered by `createdAt` descending, before the first
document that is not newer than `a`. -/
def insertDesc (a : Task) : List Task → List Task
  | [] => [a]
  | b :: l => if b.createdAt ≤ a.createdAt then a :: b :: l else b :: insertDesc a l

/-- The query option `.sort({ createdAt: -1 })`: order by `createdAt` descending.
The sort key leaves the order of documents with equal `createdAt` open; they are
returned in their natural order. -/
def sortCreatedAtDesc : List Task → List Task
  | [] => []
  | a :: l => insertDesc a (sortCreatedAtDesc l)

/-- The query `Task.find().sort({ createdAt: -1 })`. -/
def Task.find (sys : Sys) (db : List Task) : Except StoreError (List Task) :=
  if sys.storageDown then .error .unavailable else .ok (sortCreatedAtDesc db)

/-- The update document after casting. -/
inductive Update where
  | noChange
  | setCompleted (v : Option Bool)
  deriving DecidableEq, Repr

/-- Cast of the update `{ completed: v }`. -/
def castUpdate (m : Mongoose) : Option Json → Except StoreError Update
  | none => .ok (if m.omitUndefined then .noChange else .setCompleted none)
  | some v =>
    match castBoolean v with
    | .failed => .error .cast
    | .absent => .ok (.setCompleted none)
    | .value b => .ok (.setCompleted (some b))

/-- Apply an update to one document. -/
def Update.apply : Update → Task → Task
  | .noChange, t => t
  | .setCompleted v, t => { t with completed := v }

/-- Replace the first document whose `_id` is `oid` by `f` of it. -/
def updateFirst (oid : ObjectId) (f : Task → Task) : List Task → List Task
  | [] => []
  | t :: l => if t._id == oid then f t :: l else t :: updateFirst oid f l

/-- Remove the first document whose `_id` is `oid`. -/
def deleteFirst (oid : ObjectId) : List Task → List Task
  | [] => []
  | t :: l => if t._id == oid then l else t :: deleteFirst oid l

/-- The call `Task.findByIdAndUpdate(id, { completed }, { new: true })`: cast the id
and the update, then update the matching document and return it as updated;
`none` when no document matches. -/
def Task.findByIdAndUpdate (m : Mongoose) (sys : Sys) (db : List Task) (id : String)
    (completed : Option Json) : Except StoreError (List Task × Option Task) :=
  match m.castObjectId id with
  | none => .error .cast
  | some oid =>
    match castUpdate m completed with
    | .error e => .error e
    | .ok u =>
      if sys.storageDown then .error .unavailable
      else
        match findById db oid with
        | none => .ok (db, none)
        | some t => .ok (updateFirst oid u.apply db, some (u.apply t))

/-- The call `Task.findByIdAndDelete(id)`: cast the id, then remove the matching
document and return it; `none` when no document matches. -/
def Task.findByIdAndDelete (m : Mongoose) (sys : Sys) (db : List Task) (id : String) :
    Except StoreError (List Task × Option Task) :=
  match m.castObjectId id with
  | none => .error .cast
  | some oid =>
    if sys.storageDown then .error .unavailable
    else
      match findById db oid with
      | none => .ok (db, none)
      | some t => .ok (deleteFirst oid db, some t)

/-! ## API service (`backend/server.js`) -/

/-- Handler of `GET /api/tasks`. -/
def getTasks (sys : Sys) (db : List Task) : List Task × Response :=
  match Task.find sys db with
  | .ok tasks => (db, ⟨200, .tasks tasks⟩)
  | .error e => (db, ⟨500, .error (.ofError e)⟩)

/-- Handler of `POST /api/tasks`. -/
def postTasks (sys : Sys) (db : List Task) (body : JsonObject) : List Task × Response :=
  match (Task.new sys (body.get "title")).save sys db with
  | .ok (db', task) => (db', ⟨201, .task task⟩)
  | .error e => (db, ⟨400, .error (.ofError e)⟩)

/-- Handler of `PATCH /api/tasks/:id`. -/
def patchTask (m : Mongoose) (sys : Sys) (db : List Task) (id : String) (body : JsonObject) :
    List Task × Response :=
  match Task.findByIdAndUpdate m sys db id (body.get "completed") with
  | .ok (_, none) => (db, ⟨404, .error .taskNotFound⟩)
  | .ok (db', some task) => (db', ⟨200, .task task⟩)
  | .error e => (db, ⟨400, .error (.ofError e)⟩)

/-- Handler of `DELETE /api/tasks/:id`. -/
def deleteTask (m : Mongoose) (sys : Sys) (db : List Task) (id : String) :
    List Task × Response :=
  match Task.findByIdAndDelete m sys db id with
  | .ok (_, none) => (db, ⟨404, .error .taskNotFound⟩)
  | .ok (db', some _) => (db', ⟨204, .empty⟩)
  | .error e => (db, ⟨400, .error (.ofError e)⟩)

/-- The requests of the task routes. -/
inductive Request where
  | get
  | post (body : JsonObject)
  | patch (id : String) (body : JsonObject)
  | delete (id : String)

/-- Dispatch of one request to its handler. -/
def handle (m : Mongoose) (sys : Sys) (db : List Task) : Request → List Task × Response
  | .get => getTasks sys db
  | .post body => postTasks sys db body
  | .patch id body => patchTask m sys db id body
  | .delete id => deleteTask m sys db id

/-- The collection after a sequence of requests, each with its own server-side
circumstances. -/
def run (m : Mongoose) (db : List Task) : List (Sys × Request) → List Task
  | [] => db
  | (sys, req) :: rest => run m (handle m sys db req).1 rest

/-! ## Client application (`frontend/script.js`) -/

/-- Outcome of one `fetch` call: the promise rejects, or resolves with the
server's response (whatever its status). -/
inductive FetchResult where
  | rejected
  | resolved (r : Response)
  deriving DecidableEq, Repr

/-- The network as the client sees it: sending a request moves the world
behind it from one state to the next and gives the outcome of the call. -/
abbrev Network (σ : Type) := σ → Request → σ × FetchResult

/-- The flag `response.ok`: the status is in the range 200-299. -/
def Response.ok (r : Response) : Bool :=
  decide (200 ≤ r.status) && decide (r.status ≤ 299)

/-- What the controller holds on the page: the text of the input field and
the rows of the list container, represented by the tasks they were rendered
from. -/
structure Page where
  taskInput : String
  taskList : List Task
  deriving DecidableEq, Repr

/-- Observable actions of the controller: a network call, or a report on
the diagnostic channel (`console.error`). -/
inductive Effect where
  | fetch (r : Request)
  | log

/-- White space and line terminators of ECMAScript, the characters removed by
`String.prototype.trim`. -/
def isWhiteSpace (c : Char) : Bool :=
  let n := c.toNat
  n == 0x09 || n == 0x0A || n == 0x0B || n == 0x0C || n == 0x0D || n == 0x20 ||
  n == 0xA0 || n == 0x1680 || (decide (0x2000 ≤ n) && decide (n ≤ 0x200A)) ||
  n == 0x2028 || n == 0x2029 || n == 0x202F || n == 0x205F || n == 0x3000 || n == 0xFEFF

/-- The method `trim()` of a string. -/
def trim (s : String) : String :=
  ⟨((s.data.dropWhile isWhiteSpace).reverse.dropWhile isWhiteSpace).reverse⟩

/-- JavaScript `!v` for a value that is `true`, `false` or `null`. -/
def jsNot : Option Bool → Bool
  | some true => false
  | _ => true

namespace Client

/-- The method `renderTasks(tasks)`: the list container is replaced by one row per task. -/
def renderTasks (page : Page) (tasks : List Task) : Page :=
  { page with taskList := tasks }

/-- The method `loadTasks()`: fetch the list and render it; a rejected call, or a body
that is not an array of tasks, ends in the `catch` branch and renders
nothing. -/
def loadTasks {σ : Type} (net : Network σ) (s : σ) (page : Page) : σ × Page × List Effect :=
  match net s .get with
  | (s', .rejected) => (s', page, [.fetch .get, .log])
  | (s', .resolved r) =>
    match r.body with
    | .tasks tasks => (s', renderTasks page tasks, [.fetch .get])
    | _ => (s', page, [.fetch .get, .log])

/-- The request issued by `addTask` for a trimmed title. -/
def createRequest (title : String) : Request :=
  .post [("title", .str title)]

/-- The method `addTask(e)`: nothing is sent for an empty trimmed text; after a
successful response the input is cleared and the list reloaded. -/
def addTask {σ : Type} (net : Network σ) (s : σ) (page : Page) : σ × Page × List Effect :=
  let title := trim page.taskInput
  if title = "" then (s, page, [])
  else
    match net s (createRequest title) with
    | (s', .rejected) => (s', page, [.fetch (createRequest title), .log])
    | (s', .resolved response) =>
      if response.ok then
        let (s'', page', effects) := loadTasks net s' { page with taskInput := "" }
        (s'', page', .fetch (createRequest title) :: effects)
      else (s', page, [.fetch (createRequest title)])

/-- The request issued by `toggleTask(id, completed)`. -/
def toggleRequest (id : String) (completed : Option Bool) : Request :=
  .patch id [("completed", .bool (jsNot completed))]

/-- The method `toggleTask(id, completed)`: the request is sent and, once it
resolves, the list is reloaded. -/
def toggleTask {σ : Type} (net : Network σ) (s : σ) (page : Page) (id : String)
    (completed : Option Bool) : σ × Page × List Effect :=
  match net s (toggleRequest id completed) with
  | (s', .rejected) => (s', page, [.fetch (toggleRequest id completed), .log])
  | (s', .resolved _) =>
    let (s'', page', effects) := loadTasks net s' page
    (s'', page', .fetch (toggleRequest id completed) :: effects)

/-- The method `deleteTask(id)`: the request is sent and, once it resolves, the
list is reloaded. -/
def deleteTask {σ : Type} (net : Network σ) (s : σ) (page : Page) (id : String) :
    σ × Page × List Effect :=
  match net s (.delete id) with
  | (s', .rejected) => (s', page, [.fetch (.delete id), .log])
  | (s', .resolved _) =>
    let (s'', page', effects) := loadTasks net s' page
    (s'', page', .fetch (.delete id) :: effects)

end Client

/-- Is the effect a reload of the list, i.e. the `GET` issued by `loadTasks`? -/
def Effect.isReload : Effect → Bool
  | .fetch .get => true
  | _ => false

/-- Is the effect a create request? -/
def Effect.isCreate : Effect → Bool
  | .fetch (.post _) => true
  | _ => false

/-- The API service seen as a network: the state is the collection together
with the circumstances the coming requests will find; when none are left the
call is rejected. -/
def serverNetwork (m : Mongoose) : Network (List Task × List Sys) :=
  fun s req =>
    match s.2 with
    | [] => (s, .rejected)
    | sys :: rest => (((handle m sys s.1 req).1, rest), .resolved (handle m sys s.1 req).2)

/-! ## Sample inputs -/

/-- Value of a hexadecimal digit. -/
def hexValue (c : Char) : Option Nat :=
  let n := c.toNat
  if 48 ≤ n ∧ n ≤ 57 then some (n - 48)
  else if 97 ≤ n ∧ n ≤ 102 then some (n - 87)
  else if 65 ≤ n ∧ n ≤ 70 then some (n - 55)
  else none

/-- An ObjectId cast that accepts exactly the strings of 24 hexadecimal
digits. -/
def castHex24 (s : String) : Option ObjectId :=
  if s.length = 24 then s.data.foldlM (fun acc c => (hexValue c).map (fun d => acc * 16 + d)) 0
  else none

/-- A collaborator with the 24-digit cast that drops `undefined` from updates. -/
def sampleMongoose : Mongoose :=
  { castObjectId := castHex24, omitUndefined := true }

/-- Circumstances of a request served at time `now`, with the storage
reachable and `newId` as the generated identifier. -/
def sysUp (now : Nat) (newId : ObjectId) : Sys :=
  { now := now, newId := newId, storageDown := false }

/-- Circumstances of a request that finds the storage unreachable. -/
def sysDown (now : Nat) (newId : ObjectId) : Sys :=
  { now := now, newId := newId, storageDown := true }

/-- A stored task used in the examples. -/
def milk : Task :=
  { _id := 1, title := "Buy milk", completed := some false, createdAt := 1000 }

/-- A second stored task used in the examples. -/
def bread : Task :=
  { _id := 2, title := "Buy bread", completed := some true, createdAt := 2000 }

/-- The path parameter that casts to the identifier of `milk`. -/
def milkId : String := "000000000000000000000001"

/-- A well-formed path parameter that matches no sample task. -/
def unknownId : String := "0000000000000000000000ff"

/-! ## Auxiliary facts about the collection operations -/

theorem findById_none_iff (db : List Task) (oid : ObjectId) :
    findById db oid = none ↔ ∀ x ∈ db, x._id ≠ oid := by
  simp [findById, List.find?_eq_none]

theorem findById_some_split {db : List Task} {oid : ObjectId} {t : Task}
    (h : findById db oid = some t) :
    t._id = oid ∧ ∃ pre post, db = pre ++ t :: post ∧ ∀ x ∈ pre, x._id ≠ oid := by
  induction db with
  | nil => simp [findById] at h
  | cons a l ih =>
    by_cases ha : a._id = oid
    · have hb : (a._id == oid) = true := by simpa using ha
      have : a = t := by simpa [findById, List.find?_cons, hb] using h
      subst this
      exact ⟨ha, [], l, rfl, by simp⟩
    · have hb : (a._id == oid) = false := by simpa using ha
      have h' : findById l oid = some t := by
        simpa [findById, List.find?_cons, hb] using h
      obtain ⟨hid, pre, post, hsplit, hpre⟩ := ih h'
      refine ⟨hid, a :: pre, post, by simp [hsplit], ?_⟩
      intro x hx
      rcases List.mem_cons.1 hx with rfl | hx
      · exact ha
      · exact hpre x hx

theorem updateFirst_split (oid : ObjectId) (f : Task → Task) (pre post : List Task) (t : Task)
    (ht : t._id = oid) (hpre : ∀ x ∈ pre, x._id ≠ oid) :
    updateFirst oid f (pre ++ t :: post) = pre ++ f t :: post := by
  induction pre with
  | nil => simp [updateFirst, ht]
  | cons a l ih =>
    have ha : a._id ≠ oid := hpre a (by simp)
    have := ih (fun x hx => hpre x (by simp [hx]))
    simp [updateFirst, ha, this]

theorem mem_updateFirst_title (oid : ObjectId) (u : Update) (db : List Task) :
    ∀ x ∈ updateFirst oid u.apply db, ∃ y ∈ db, x.title = y.title := by
  induction db with
  | nil => simp [updateFirst]
  | cons a l ih =>
    intro x hx
    by_cases ha : a._id = oid
    · simp only [updateFirst, ha, beq_self_eq_true, if_true, List.mem_cons] at hx
      rcases hx with rfl | hx
      · exact ⟨a, by simp, by cases u <;> rfl⟩
      · exact ⟨x, by simp [hx], rfl⟩
    · have hne : (a._id == oid) = false := by simpa using ha
      simp only [updateFirst, hne, List.mem_cons, Bool.false_eq_true, if_false] at hx
      rcases hx with rfl | hx
      · exact ⟨x, by simp, rfl⟩
      · obtain ⟨y, hy, hxy⟩ := ih x hx
        exact ⟨y, by simp [hy], hxy⟩

theorem mem_deleteFirst (oid : ObjectId) (db : List Task) :
    ∀ x ∈ deleteFirst oid db, x ∈ db := by
  induction db with
  | nil => simp [deleteFirst]
  | cons a l ih =>
    intro x hx
    by_cases ha : a._id = oid
    · simp only [deleteFirst, ha, beq_self_eq_true, if_true] at hx
      simp [hx]
    · have hne : (a._id == oid) = false := by simpa using ha
      simp only [deleteFirst, hne, List.mem_cons, Bool.false_eq_true, if_false] at hx
      rcases hx with rfl | hx
      · simp
      · simp [ih x hx]

theorem validate_title_ne_empty {d : Draft} {t : Task} (h : d.validate = .ok t) :
    t.title ≠ "" ∧ t._id = d._id ∧ t.completed = d.completed ∧ t.createdAt = d.createdAt := by
  unfold Draft.validate at h
  split at h
  · cases h
  · cases h
  · split at h
    · cases h
    · rename_i s _ hs
      injection h with h
      subst h
      exact ⟨hs, rfl, rfl, rfl⟩

/-- Every handler keeps the titles of the collection non-empty. -/
theorem handle_titles_nonempty (m : Mongoose) (sys : Sys) (db : List Task) (req : Request)
    (hdb : ∀ t ∈ db, t.title ≠ "") : ∀ t ∈ (handle m sys db req).1, t.title ≠ "" := by
  cases req with
  | get =>
    simp only [handle, getTasks]
    split <;> exact hdb
  | post body =>
    simp only [handle, postTasks, Draft.save]
    cases hv : (Task.new sys (body.get "title")).validate with
    | error e => exact hdb
    | ok t =>
      by_cases hdown : sys.storageDown = true
      · simpa [hdown] using hdb
      · by_cases hdup : (findById db t._id).isSome = true
        · simpa [hdown, hdup] using hdb
        · simp only [hdown, hdup, if_false, Bool.false_eq_true]
          intro x hx
          rcases List.mem_append.1 hx with hx | hx
          · exact hdb x hx
          · have : x = t := by simpa using hx
            subst this
            exact (validate_title_ne_empty hv).1
  | patch id body =>
    simp only [handle, patchTask, Task.findByIdAndUpdate]
    cases m.castObjectId id with
    | none => exact hdb
    | some oid =>
      cases castUpdate m (body.get "completed") with
      | error e => exact hdb
      | ok u =>
        by_cases hdown : sys.storageDown = true
        · simpa [hdown] using hdb
        · cases hf : findById db oid with
          | none => simpa [hdown, hf] using hdb
          | some t =>
            simp only [hdown, hf, if_false, Bool.false_eq_true]
            intro x hx
            obtain ⟨y, hy, hxy⟩ := mem_updateFirst_title oid u db x hx
            rw [hxy]
            exact hdb y hy
  | delete id =>
    simp only [handle, deleteTask, Task.findByIdAndDelete]
    cases m.castObjectId id with
    | none => exact hdb
    | some oid =>
      by_cases hdown : sys.storageDown = true
      · simpa [hdown] using hdb
      · cases hf : findById db oid with
        | none => simpa [hdown, hf] using hdb
        | some t =>
          simp only [hdown, hf, if_false, Bool.false_eq_true]
          intro x hx
          exact hdb x (mem_deleteFirst oid db x hx)

theorem run_titles_nonempty (m : Mongoose) (reqs : List (Sys × Request)) :
    ∀ db : List Task, (∀ t ∈ db, t.title ≠ "") → ∀ t ∈ run m db reqs, t.title ≠ "" := by
  induction reqs with
  | nil => intro db hdb; simpa [run] using hdb
  | cons r rest ih =>
    intro db hdb
    obtain ⟨sys, req⟩ := r
    simp only [run]
    exact ih _ (handle_titles_nonempty m sys db req hdb)

theorem unknown_id_not_found_aux (m : Mongoose) (sys : Sys) (db : List Task) (id : String)
    (oid : ObjectId) (body : JsonObject)
    (hid : m.castObjectId id = some oid) (hnone : findById db oid = none)
    (hbody : ∃ u, castUpdate m (body.get "completed") = .ok u)
    (hup : sys.storageDown = false) :
    patchTask m sys db id body = (db, ⟨404, .error .taskNotFound⟩) ∧
      deleteTask m sys db id = (db, ⟨404, .error .taskNotFound⟩) := by
  obtain ⟨u, hu⟩ := hbody
  constructor
  · simp [patchTask, Task.findByIdAndUpdate, hid, hu, hup, hnone]
  · simp [deleteTask, Task.findByIdAndDelete, hid, hup, hnone]

theorem map_id_updateFirst (oid : ObjectId) (u : Update) (db : List Task) :
    (updateFirst oid u.apply db).map Task._id = db.map Task._id := by
  induction db with
  | nil => rfl
  | cons a l ih =>
    by_cases ha : a._id = oid
    · cases u <;> simp [updateFirst, ha, Update.apply]
    · simp [updateFirst, ha, ih]

theorem deleteFirst_sublist (oid : ObjectId) (db : List Task) :
    List.Sublist (deleteFirst oid db) db := by
  induction db with
  | nil => simp [deleteFirst]
  | cons a l ih =>
    by_cases ha : a._id = oid
    · simp [deleteFirst, ha]
    · simp [deleteFirst, ha, ih]

/-- Every handler keeps the identifiers of the collection distinct. -/
theorem handle_ids_nodup (m : Mongoose) (sys : Sys) (db : List Task) (req : Request)
    (hdb : (db.map Task._id).Nodup) : ((handle m sys db req).1.map Task._id).Nodup := by
  cases req with
  | get =>
    simp only [handle, getTasks]
    split <;> exact hdb
  | post body =>
    simp only [handle, postTasks, Draft.save]
    cases hv : (Task.new sys (body.get "title")).validate with
    | error e => exact hdb
    | ok t =>
      by_cases hdown : sys.storageDown = true
      · simpa [hdown] using hdb
      · cases hf : findById db t._id with
        | some t0 => simpa [hdown, hf] using hdb
        | none =>
          simp only [hdown, hf, Option.isSome_none, if_false, Bool.false_eq_true]
          rw [findById_none_iff] at hf
          rw [List.map_append, List.nodup_append]
          refine ⟨hdb, by simp, ?_⟩
          intro a ha hb
          simp only [List.map_cons, List.map_nil, List.mem_singleton] at hb
          obtain ⟨x, hx, hxa⟩ := List.mem_map.1 ha
          exact hf x hx (hxa.trans hb)
  | patch id body =>
    simp only [handle, patchTask, Task.findByIdAndUpdate]
    cases m.castObjectId id with
    | none => exact hdb
    | some oid =>
      cases castUpdate m (body.get "completed") with
      | error e => exact hdb
      | ok u =>
        by_cases hdown : sys.storageDown = true
        · simpa [hdown] using hdb
        · cases hf : findById db oid with
          | none => simpa [hdown, hf] using hdb
          | some t =>
            simp only [hdown, hf, if_false, Bool.false_eq_true]
            rw [map_id_updateFirst]
            exact hdb
  | delete id =>
    simp only [handle, deleteTask, Task.findByIdAndDelete]
    cases m.castObjectId id with
    | none => exact hdb
    | some oid =>
      by_cases hdown : sys.storageDown = true
      · simpa [hdown] using hdb
      · cases hf : findById db oid with
        | none => simpa [hdown, hf] using hdb
        | some t =>
          simp only [hdown, hf, if_false, Bool.false_eq_true]
          exact hdb.sublist ((deleteFirst_sublist oid db).map Task._id)

/-- Identifiers are distinct in every collection reached from the empty one. -/
theorem run_ids_nodup (m : Mongoose) (reqs : List (Sys × Request)) :
    ∀ db : List Task, (db.map Task._id).Nodup → ((run m db reqs).map Task._id).Nodup := by
  induction reqs with
  | nil => intro db hdb; simpa [run] using hdb
  | cons r rest ih =>
    intro db hdb
    obtain ⟨sys, req⟩ := r
    simp only [run]
    exact ih _ (handle_ids_nodup m sys db req hdb)

/-! ## Facts about the sorted listing -/

theorem insertDesc_perm (a : Task) (l : List Task) : (insertDesc a l).Perm (a :: l) := by
  induction l with
  | nil => simp [insertDesc]
  | cons b l ih =>
    by_cases h : b.createdAt ≤ a.createdAt
    · simp [insertDesc, h]
    · simp only [insertDesc, h, if_false]
      exact (List.Perm.cons b ih).trans (List.Perm.swap a b l)

theorem sortCreatedAtDesc_perm (l : List Task) : (sortCreatedAtDesc l).Perm l := by
  induction l with
  | nil => simp [sortCreatedAtDesc]
  | cons a l ih =>
    simp only [sortCreatedAtDesc]
    exact (insertDesc_perm a _).trans (List.Perm.cons a ih)

theorem insertDesc_sorted (a : Task) (l : List Task)
    (hl : l.Pairwise (fun x y => y.createdAt ≤ x.createdAt)) :
    (insertDesc a l).Pairwise (fun x y => y.createdAt ≤ x.createdAt) := by
  induction l with
  | nil => simp [insertDesc]
  | cons b l ih =>
    rw [List.pairwise_cons] at hl
    by_cases h : b.createdAt ≤ a.createdAt
    · simp only [insertDesc, h, if_true]
      refine List.pairwise_cons.2 ⟨?_, List.pairwise_cons.2 hl⟩
      intro y hy
      rcases List.mem_cons.1 hy with rfl | hy
      · exact h
      · exact Nat.le_trans (hl.1 y hy) h
    · simp only [insertDesc, h, if_false]
      refine List.pairwise_cons.2 ⟨?_, ih hl.2⟩
      intro y hy
      rcases List.mem_cons.1 ((insertDesc_perm a l).mem_iff.1 hy) with rfl | hy
      · exact Nat.le_of_lt (Nat.lt_of_not_le h)
      · exact hl.1 y hy

theorem sortCreatedAtDesc_sorted (l : List Task) :
    (sortCreatedAtDesc l).Pairwise (fun x y => y.createdAt ≤ x.createdAt) := by
  induction l with
  | nil => simp [sortCreatedAtDesc]
  | cons a l ih => exact insertDesc_sorted a _ ih

theorem filter_insertDesc (p : Task → Bool) (a : Task) (l : List Task)
    (hl : l.Pairwise (fun x y => y.createdAt ≤ x.createdAt)) :
    (insertDesc a l).filter p = if p a then insertDesc a (l.filter p) else l.filter p := by
  induction l with
  | nil => cases hp : p a <;> simp [insertDesc, hp]
  | cons b l ih =>
    rw [List.pairwise_cons] at hl
    by_cases h : b.createdAt ≤ a.createdAt
    · have hhead : ∀ l' : List Task, (∀ y ∈ l', y.createdAt ≤ b.createdAt) →
          insertDesc a l' = a :: l' := by
        intro l' hl'
        cases l' with
        | nil => rfl
        | cons c l'' =>
          have : c.createdAt ≤ a.createdAt := Nat.le_trans (hl' c (by simp)) h
          simp [insertDesc, this]
      have hfl : insertDesc a (l.filter p) = a :: l.filter p :=
        hhead _ (fun y hy => hl.1 y (List.mem_of_mem_filter hy))
      cases hpa : p a <;> cases hpb : p b <;>
        simp [insertDesc, h, List.filter_cons, hpa, hpb, hfl]
    · have ih' := ih hl.2
      cases hpa : p a <;> cases hpb : p b <;>
        simp [insertDesc, h, List.filter_cons, hpa, hpb, ih'] at *
  
theorem sortCreatedAtDesc_filter (p : Task → Bool) (l : List Task) :
    sortCreatedAtDesc (l.filter p) = (sortCreatedAtDesc l).filter p := by
  induction l with
  | nil => simp [sortCreatedAtDesc]
  | cons a l ih =>
    rw [sortCreatedAtDesc, filter_insertDesc p a _ (sortCreatedAtDesc_sorted l)]
    cases hpa : p a
    · simp [List.filter_cons, hpa, ih]
    · simp [List.filter_cons, hpa, sortCreatedAtDesc, ih]

theorem deleteFirst_eq_filter (oid : ObjectId) (db : List Task)
    (hdb : (db.map Task._id).Nodup) :
    deleteFirst oid db = db.filter (fun x => x._id != oid) := by
  induction db with
  | nil => simp [deleteFirst]
  | cons a l ih =>
    simp only [List.map_cons, List.nodup_cons, List.mem_map, not_exists, not_and] at hdb
    by_cases ha : a._id = oid
    · have hall : ∀ x ∈ l, (x._id != oid) = true := by
        intro x hx
        have := hdb.1 x hx
        simpa [ha] using this
      simp [deleteFirst, ha, List.filter_cons, List.filter_eq_self.2 hall]
    · simp [deleteFirst, ha, List.filter_cons, ih hdb.2]

theorem sorted_sublist_pair (l : List Task)
    (hl : l.Pairwise (fun x y => y.createdAt ≤ x.createdAt)) (x y : Task)
    (hx : x ∈ l) (hy : y ∈ l) (hxy : y.createdAt < x.createdAt) : List.Sublist [x, y] l := by
  induction l with
  | nil => simp at hx
  | cons a l ih =>
    rw [List.pairwise_cons] at hl
    have hyl : y ∈ l := by
      rcases List.mem_cons.1 hy with rfl | hy
      · rcases List.mem_cons.1 hx with rfl | hx
        · omega
        · have := hl.1 x hx; omega
      · exact hy
    by_cases hax : x = a
    · subst hax
      exact List.Sublist.cons₂ _ (List.singleton_sublist.2 hyl)
    · have hxl : x ∈ l := by
        rcases List.mem_cons.1 hx with rfl | hx
        · exact absurd rfl hax
        · exact hx
      exact List.Sublist.cons _ (ih hl.2 hxl hyl)

theorem sorted_sublist_triple (l : List Task)
    (hl : l.Pairwise (fun x y => y.createdAt ≤ x.createdAt)) (x y z : Task)
    (hx : x ∈ l) (hy : y ∈ l) (hz : z ∈ l)
    (hxy : y.createdAt < x.createdAt) (hyz : z.createdAt < y.createdAt) :
    List.Sublist [x, y, z] l := by
  induction l with
  | nil => simp at hx
  | cons a l ih =>
    have hl' := List.pairwise_cons.1 hl
    have hyl : y ∈ l := by
      rcases List.mem_cons.1 hy with rfl | hy
      · rcases List.mem_cons.1 hx with rfl | hx
        · omega
        · have := hl'.1 x hx; omega
      · exact hy
    have hzl : z ∈ l := by
      rcases List.mem_cons.1 hz with rfl | hz
      · have := hl'.1 y hyl; omega
      · exact hz
    by_cases hax : x = a
    · subst hax
      exact List.Sublist.cons₂ _ (sorted_sublist_pair l hl'.2 y z hyl hzl hyz)
    · have hxl : x ∈ l := by
        rcases List.mem_cons.1 hx with rfl | hx
        · exact absurd rfl hax
        · exact hx
      exact List.Sublist.cons _ (ih hl'.2 hxl hyl hzl)

/-! ## Create -/

/-- What a `201` answer of the create handler says about the request: the
task was appended to the collection and carries the server-side values. -/
theorem postTasks_created {sys : Sys} {db db' : List Task} {body : JsonObject} {t : Task}
    (h : postTasks sys db body = (db', ⟨201, .task t⟩)) :
    db' = db ++ [t] ∧ t._id = sys.newId ∧ t.createdAt = sys.now ∧ t.completed = some false := by
  simp only [postTasks, Draft.save] at h
  cases hv : (Task.new sys (body.get "title")).validate with
  | error e => simp [hv] at h
  | ok t' =>
    obtain ⟨_, hid, hc, hat⟩ := validate_title_ne_empty hv
    by_cases hdown : sys.storageDown = true
    · simp [hv, hdown] at h
    · by_cases hdup : (findById db t'._id).isSome = true
      · simp [hv, hdown, hdup] at h
      · simp only [hv, hdown, hdup, if_false, Bool.false_eq_true, Prod.mk.injEq,
          Response.mk.injEq, Body.task.injEq, true_and] at h
        obtain ⟨h1, h2⟩ := h
        subst h2
        exact ⟨h1.symm, hid, hat, hc⟩

/-- C1. A create request whose body carries a non-empty string title is
answered 201 with a task that has the supplied title, `completed = false`, the
identifier generated by the server and the server's clock value as `createdAt`,
whatever else the body contains; the same task is appended to the collection.
(The storage is reachable and the generated identifier is unused.) -/
theorem create_assigns_server_fields (sys : Sys) (db : List Task) (body : JsonObject)
    (s : String) (htitle : body.get "title" = some (.str s)) (hs : s ≠ "")
    (hup : sys.storageDown = false) (hfresh : findById db sys.newId = none) :
    postTasks sys db body =
      (db ++ [{ _id := sys.newId, title := s, completed := some false, createdAt := sys.now }],
        ⟨201, .task { _id := sys.newId, title := s, completed := some false,
                      createdAt := sys.now }⟩) := by
  simp [postTasks, Draft.save, Task.new, Draft.validate, castString, htitle, hs, hup, hfresh]

theorem create_assigns_server_fields_witness :
    postTasks (sysUp 3000 7) [milk]
        [("title", .str "Walk dog"), ("completed", .bool true), ("createdAt", .num 1),
          ("_id", .str milkId)] =
      ([milk, { _id := 7, title := "Walk dog", completed := some false, createdAt := 3000 }],
        ⟨201, .task { _id := 7, title := "Walk dog", completed := some false,
                      createdAt := 3000 }⟩) :=
  create_assigns_server_fields (sysUp 3000 7) [milk] _ "Walk dog" rfl (by decide)
    (by decide) (by decide)

/-- C2. A create request whose body has no title (absent or `null`) or the
empty title is answered 400 with an `{ error }` body and leaves the collection
as it was; and after any sequence of requests served from the empty
collection every stored task has a non-empty title. -/
theorem create_rejects_missing_title (m : Mongoose) (sys : Sys) (db : List Task)
    (body : JsonObject)
    (h : body.get "title" = none ∨ body.get "title" = some .null ∨
      body.get "title" = some (.str "")) :
    (postTasks sys db body).1 = db ∧ (postTasks sys db body).2.status = 400 ∧
      (postTasks sys db body).2.body.isError = true ∧
      ∀ reqs : List (Sys × Request), ∀ t ∈ run m [] reqs, t.title ≠ "" := by
  have hpost : postTasks sys db body = (db, ⟨400, .error (.ofError .validation)⟩) := by
    rcases h with h | h | h <;>
      simp [postTasks, Draft.save, Task.new, Draft.validate, castString, h]
  refine ⟨by rw [hpost], by rw [hpost], by rw [hpost]; rfl, ?_⟩
  intro reqs
  exact run_titles_nonempty m reqs [] (by simp)

theorem create_rejects_missing_title_witness :
    (postTasks (sysUp 3000 7) [milk] [("completed", .bool true)]).1 = [milk] ∧
      (postTasks (sysUp 3000 7) [milk] [("completed", .bool true)]).2.status = 400 ∧
      (postTasks (sysUp 3000 7) [milk] [("completed", .bool true)]).2.body.isError = true ∧
      ∀ reqs : List (Sys × Request), ∀ t ∈ run sampleMongoose [] reqs, t.title ≠ "" :=
  create_rejects_missing_title sampleMongoose (sysUp 3000 7) [milk] _ (Or.inl rfl)

/-! ## Toggle and delete -/

/-- C4. A `PATCH` on the id of a stored task with a body carrying the boolean
`completed = b` (and whatever else) is answered 200 with the task as updated:
`completed` is `b`, while `_id`, `title` and `createdAt` are as before; the task
is replaced in place, every other document and the number of documents are
unchanged.  (The storage is reachable.) -/
theorem patch_sets_only_completed (m : Mongoose) (sys : Sys) (db : List Task) (id : String)
    (oid : ObjectId) (t : Task) (body : JsonObject) (b : Bool)
    (hid : m.castObjectId id = some oid) (hfind : findById db oid = some t)
    (hbody : body.get "completed" = some (.bool b)) (hup : sys.storageDown = false) :
    ∃ t' pre post, patchTask m sys db id body = (pre ++ t' :: post, ⟨200, .task t'⟩) ∧
      db = pre ++ t :: post ∧
      t'.completed = some b ∧ t'._id = t._id ∧ t'.title = t.title ∧
      t'.createdAt = t.createdAt ∧ (pre ++ t' :: post).length = db.length := by
  obtain ⟨ht, pre, post, hsplit, hpre⟩ := findById_some_split hfind
  refine ⟨{ t with completed := some b }, pre, post, ?_, hsplit, rfl, rfl, rfl, rfl, ?_⟩
  · have hupd := updateFirst_split oid (Update.setCompleted (some b)).apply pre post t ht hpre
    simp only [patchTask, Task.findByIdAndUpdate, hid, hbody, castUpdate, castBoolean, hup,
      hfind, Bool.false_eq_true, if_false]
    rw [hsplit, hupd]
    rfl
  · simp [hsplit]

theorem patch_sets_only_completed_witness :
    ∃ t' pre post,
      patchTask sampleMongoose (sysUp 3000 7) [bread, milk] milkId
          [("completed", .bool true), ("title", .str "Buy beer")] =
        (pre ++ t' :: post, ⟨200, .task t'⟩) ∧
      [bread, milk] = pre ++ milk :: post ∧
      t'.completed = some true ∧ t'._id = milk._id ∧ t'.title = milk.title ∧
      t'.createdAt = milk.createdAt ∧ (pre ++ t' :: post).length = [bread, milk].length :=
  patch_sets_only_completed sampleMongoose (sysUp 3000 7) [bread, milk] milkId 1 milk _ true
    (by decide) (by decide) rfl (by decide)

/-- C5. For a well-formed id that matches no stored task, `PATCH` (with a body
that passes the schema cast) and `DELETE` are both answered 404 with the
`{ error }` body `'Task not found'`, and the collection is unchanged.  (The
storage is reachable.) -/
theorem unknown_id_not_found (m : Mongoose) (sys : Sys) (db : List Task) (id : String)
    (oid : ObjectId) (body : JsonObject)
    (hid : m.castObjectId id = some oid) (hnone : findById db oid = none)
    (hbody : ∃ u, castUpdate m (body.get "completed") = .ok u)
    (hup : sys.storageDown = false) :
    patchTask m sys db id body = (db, ⟨404, .error .taskNotFound⟩) ∧
      deleteTask m sys db id = (db, ⟨404, .error .taskNotFound⟩) := by
  exact unknown_id_not_found_aux m sys db id oid body hid hnone hbody hup

theorem unknown_id_not_found_witness :
    patchTask sampleMongoose (sysUp 3000 7) [bread, milk] unknownId [("completed", .bool true)] =
        ([bread, milk], ⟨404, .error .taskNotFound⟩) ∧
      deleteTask sampleMongoose (sysUp 3000 7) [bread, milk] unknownId =
        ([bread, milk], ⟨404, .error .taskNotFound⟩) :=
  unknown_id_not_found sampleMongoose (sysUp 3000 7) [bread, milk] unknownId 255 _
    (by decide) (by decide) ⟨.setCompleted (some true), rfl⟩ (by decide)

/-! ## List -/

/-- C3, refuted as stated: two tasks created one after the other at the same
clock value are listed in creation order, not newest first.  `A`, `B`, `C` are
created in that order, `A` and `B` with `createdAt = 1000`; the listing is
`[C, A, B]`, not `[C, B, A]`. -/
theorem list_order_equal_timestamps :
    (getTasks (sysUp 5000 9)
        (run sampleMongoose []
          [(sysUp 1000 1, .post [("title", .str "A")]),
           (sysUp 1000 2, .post [("title", .str "B")]),
           (sysUp 1001 3, .post [("title", .str "C")])])).2 =
      ⟨200, .tasks
        [{ _id := 3, title := "C", completed := some false, createdAt := 1001 },
         { _id := 1, title := "A", completed := some false, createdAt := 1000 },
         { _id := 2, title := "B", completed := some false, createdAt := 1000 }]⟩ ∧
    ([{ _id := 3, title := "C", completed := some false, createdAt := 1001 },
      { _id := 1, title := "A", completed := some false, createdAt := 1000 },
      { _id := 2, title := "B", completed := some false, createdAt := 1000 }] : List Task) ≠
     [{ _id := 3, title := "C", completed := some false, createdAt := 1001 },
      { _id := 2, title := "B", completed := some false, createdAt := 1000 },
      { _id := 1, title := "A", completed := some false, createdAt := 1000 }] := by
  decide

/-- C3, amended.  With the storage reachable, the list handler answers 200 with a
permutation of the collection (every stored task exactly once) ordered by
`createdAt` descending.  If `A`, `B`, `C` are created in that order by the create
handler with strictly increasing `createdAt`, a following listing has `C` before
`B` before `A`. -/
theorem list_newest_first (db db1 db2 db3 : List Task) (sysA sysB sysC sysG : Sys)
    (bodyA bodyB bodyC : JsonObject) (A B C : Task)
    (hA : postTasks sysA db bodyA = (db1, ⟨201, .task A⟩))
    (hB : postTasks sysB db1 bodyB = (db2, ⟨201, .task B⟩))
    (hC : postTasks sysC db2 bodyC = (db3, ⟨201, .task C⟩))
    (hAB : A.createdAt < B.createdAt) (hBC : B.createdAt < C.createdAt)
    (hup : sysG.storageDown = false) :
    (∀ (sys : Sys) (store : List Task), sys.storageDown = false →
        ∃ ts, getTasks sys store = (store, ⟨200, .tasks ts⟩) ∧ ts.Perm store ∧
          ts.Pairwise (fun x y => y.createdAt ≤ x.createdAt)) ∧
      ∃ ts, getTasks sysG db3 = (db3, ⟨200, .tasks ts⟩) ∧ List.Sublist [C, B, A] ts := by
  have h1 := (postTasks_created hA).1
  have h2 := (postTasks_created hB).1
  have h3 := (postTasks_created hC).1
  have hmem : ∀ x, x ∈ db3 → x ∈ sortCreatedAtDesc db3 := fun x hx =>
    (sortCreatedAtDesc_perm db3).mem_iff.2 hx
  refine ⟨fun sys store hs => ⟨sortCreatedAtDesc store, by simp [getTasks, Task.find, hs],
    sortCreatedAtDesc_perm store, sortCreatedAtDesc_sorted store⟩,
    sortCreatedAtDesc db3, by simp [getTasks, Task.find, hup], ?_⟩
  refine sorted_sublist_triple _ (sortCreatedAtDesc_sorted db3) C B A ?_ ?_ ?_ hBC hAB
  · exact hmem C (by simp [h3])
  · exact hmem B (by simp [h3, h2])
  · exact hmem A (by simp [h3, h2, h1])

theorem list_newest_first_witness :
    (∀ (sys : Sys) (store : List Task), sys.storageDown = false →
        ∃ ts, getTasks sys store = (store, ⟨200, .tasks ts⟩) ∧ ts.Perm store ∧
          ts.Pairwise (fun x y => y.createdAt ≤ x.createdAt)) ∧
      ∃ ts, getTasks (sysUp 5000 9)
          [milk, { _id := 3, title := "A", completed := some false, createdAt := 1000 },
            { _id := 4, title := "B", completed := some false, createdAt := 1001 },
            { _id := 5, title := "C", completed := some false, createdAt := 1002 }] =
        ([milk, { _id := 3, title := "A", completed := some false, createdAt := 1000 },
            { _id := 4, title := "B", completed := some false, createdAt := 1001 },
            { _id := 5, title := "C", completed := some false, createdAt := 1002 }],
          ⟨200, .tasks ts⟩) ∧
      List.Sublist
        [{ _id := 5, title := "C", completed := some false, createdAt := 1002 },
         { _id := 4, title := "B", completed := some false, createdAt := 1001 },
         { _id := 3, title := "A", completed := some false, createdAt := 1000 }] ts :=
  list_newest_first [milk]
    [milk, { _id := 3, title := "A", completed := some false, createdAt := 1000 }]
    [milk, { _id := 3, title := "A", completed := some false, createdAt := 1000 },
      { _id := 4, title := "B", completed := some false, createdAt := 1001 }]
    _ (sysUp 1000 3) (sysUp 1001 4) (sysUp 1002 5) (sysUp 5000 9)
    [("title", .str "A")] [("title", .str "B")] [("title", .str "C")] _ _ _
    (by decide) (by decide) (by decide) (by decide) (by decide) (by decide)

/-! ## Delete -/

theorem findById_mem {db : List Task} {oid : ObjectId} {t : Task}
    (h : findById db oid = some t) : t ∈ db ∧ t._id = oid := by
  obtain ⟨hid, pre, post, hsplit, _⟩ := findById_some_split h
  exact ⟨by simp [hsplit], hid⟩

theorem erase_eq_filter_id (l : List Task) (t : Task) (hl : (l.map Task._id).Nodup)
    (ht : t ∈ l) : l.erase t = l.filter (fun x => x._id != t._id) := by
  induction l with
  | nil => simp
  | cons a l ih =>
    simp only [List.map_cons, List.nodup_cons, List.mem_map, not_exists, not_and] at hl
    by_cases hat : a = t
    · subst hat
      have hall : ∀ x ∈ l, (x._id != a._id) = true := by
        intro x hx
        simpa using hl.1 x hx
      simp [List.filter_cons, List.filter_eq_self.2 hall]
    · have htl : t ∈ l := by
        rcases List.mem_cons.1 ht with h | h
        · exact absurd h.symm hat
        · exact h
      have hid : a._id ≠ t._id := fun h => hl.1 t htl h.symm
      have hbeq : (a == t) = false := by simpa using hat
      simp [List.erase_cons, hbeq, List.filter_cons, hid, ih hl.2 htl]

/-- C6. `DELETE` on the id of a stored task is answered 204 with an empty body and
removes that task: a following listing is the previous listing with the task
erased (the others present, unchanged, in the same order), and a following
`PATCH` (with a body that passes the schema cast) or `DELETE` on the same id is
answered 404.  (Identifiers in the collection are unique and the storage is
reachable for each request.) -/
theorem delete_removes_task (m : Mongoose) (db : List Task) (id : String) (oid : ObjectId)
    (t : Task) (sysD sysG sysN : Sys) (body : JsonObject)
    (hid : m.castObjectId id = some oid) (hfind : findById db oid = some t)
    (hnodup : (db.map Task._id).Nodup)
    (hbody : ∃ u, castUpdate m (body.get "completed") = .ok u)
    (hupD : sysD.storageDown = false) (hupG : sysG.storageDown = false)
    (hupN : sysN.storageDown = false) :
    ∃ db' before, deleteTask m sysD db id = (db', ⟨204, .empty⟩) ∧
      getTasks sysG db = (db, ⟨200, .tasks before⟩) ∧
      getTasks sysG db' = (db', ⟨200, .tasks (before.erase t)⟩) ∧
      t ∉ before.erase t ∧
      patchTask m sysN db' id body = (db', ⟨404, .error .taskNotFound⟩) ∧
      deleteTask m sysN db' id = (db', ⟨404, .error .taskNotFound⟩) := by
  obtain ⟨htmem, htid⟩ := findById_mem hfind
  have hdel : deleteFirst oid db = db.filter (fun x => x._id != oid) :=
    deleteFirst_eq_filter oid db hnodup
  have hsortnodup : ((sortCreatedAtDesc db).map Task._id).Nodup :=
    ((sortCreatedAtDesc_perm db).map Task._id).nodup_iff.2 hnodup
  have htsorted : t ∈ sortCreatedAtDesc db := (sortCreatedAtDesc_perm db).mem_iff.2 htmem
  have herase : (sortCreatedAtDesc db).erase t =
      sortCreatedAtDesc (db.filter (fun x => x._id != oid)) := by
    rw [erase_eq_filter_id _ t hsortnodup htsorted, sortCreatedAtDesc_filter, htid]
  have hgone : findById (db.filter (fun x => x._id != oid)) oid = none := by
    rw [findById_none_iff]
    intro x hx
    simpa using (List.mem_filter.1 hx).2
  refine ⟨db.filter (fun x => x._id != oid), sortCreatedAtDesc db, ?_, ?_, ?_, ?_, ?_, ?_⟩
  · simp [deleteTask, Task.findByIdAndDelete, hid, hupD, hfind, hdel]
  · simp [getTasks, Task.find, hupG]
  · simp [getTasks, Task.find, hupG, herase]
  · exact fun h => (List.Nodup.mem_erase_iff (hsortnodup.of_map _)).1 h |>.1 rfl
  · exact (unknown_id_not_found_aux m sysN _ id oid body hid hgone hbody hupN).1
  · exact (unknown_id_not_found_aux m sysN _ id oid body hid hgone hbody hupN).2

theorem delete_removes_task_witness :
    ∃ db' before,
      deleteTask sampleMongoose (sysUp 3000 7) [milk, bread] milkId = (db', ⟨204, .empty⟩) ∧
      getTasks (sysUp 3001 8) [milk, bread] = ([milk, bread], ⟨200, .tasks before⟩) ∧
      getTasks (sysUp 3001 8) db' = (db', ⟨200, .tasks (before.erase milk)⟩) ∧
      milk ∉ before.erase milk ∧
      patchTask sampleMongoose (sysUp 3002 9) db' milkId [("completed", .bool true)] =
        (db', ⟨404, .error .taskNotFound⟩) ∧
      deleteTask sampleMongoose (sysUp 3002 9) db' milkId =
        (db', ⟨404, .error .taskNotFound⟩) :=
  delete_removes_task sampleMongoose [milk, bread] milkId 1 milk (sysUp 3000 7) (sysUp 3001 8)
    (sysUp 3002 9) _ (by decide) (by decide) (by decide)
    ⟨.setCompleted (some true), rfl⟩ (by decide) (by decide) (by decide)

/-! ## Error statuses -/

/-- C7, refuted as stated: a create request with a valid title that finds the
storage unreachable is answered 400, and so are a toggle and a delete on a
well-formed id; only the list handler answers 500. -/
theorem storage_failure_answered_400 :
    (postTasks (sysDown 3000 7) [milk] [("title", .str "Walk dog")]).2 =
        ⟨400, .error (.ofError .unavailable)⟩ ∧
      (patchTask sampleMongoose (sysDown 3000 7) [milk] milkId [("completed", .bool true)]).2 =
        ⟨400, .error (.ofError .unavailable)⟩ ∧
      (deleteTask sampleMongoose (sysDown 3000 7) [milk] milkId).2 =
        ⟨400, .error (.ofError .unavailable)⟩ ∧
      (getTasks (sysDown 3000 7) [milk]).2 = ⟨500, .error (.ofError .unavailable)⟩ := by
  decide

/-- C7, amended.  Not-found (well-formed id, no matching document) is answered
404 by toggle and delete; a validation error (title rejected by the schema,
malformed id, `completed` that fails the cast) is answered 400; a storage
failure is answered 500 by the list handler, and 400 by create, toggle and
delete, whose `catch` branch answers every error with 400.  No failing request
changes the collection. -/
theorem error_status_mapping (m : Mongoose) (sys : Sys) (db : List Task) (id : String)
    (body : JsonObject) :
    (sys.storageDown = true →
        getTasks sys db = (db, ⟨500, .error (.ofError .unavailable)⟩) ∧
        (postTasks sys db body).1 = db ∧ (postTasks sys db body).2.status = 400 ∧
        (patchTask m sys db id body).1 = db ∧ (patchTask m sys db id body).2.status = 400 ∧
        (deleteTask m sys db id).1 = db ∧ (deleteTask m sys db id).2.status = 400) ∧
      ((Task.new sys (body.get "title")).validate = .error .validation →
        postTasks sys db body = (db, ⟨400, .error (.ofError .validation)⟩)) ∧
      (m.castObjectId id = none →
        patchTask m sys db id body = (db, ⟨400, .error (.ofError .cast)⟩) ∧
        deleteTask m sys db id = (db, ⟨400, .error (.ofError .cast)⟩)) ∧
      ((∃ oid, m.castObjectId id = some oid) →
        castUpdate m (body.get "completed") = .error .cast →
        patchTask m sys db id body = (db, ⟨400, .error (.ofError .cast)⟩)) ∧
      (∀ oid, m.castObjectId id = some oid → findById db oid = none →
        sys.storageDown = false →
        ((∃ u, castUpdate m (body.get "completed") = .ok u) →
          patchTask m sys db id body = (db, ⟨404, .error .taskNotFound⟩)) ∧
        deleteTask m sys db id = (db, ⟨404, .error .taskNotFound⟩)) := by
  refine ⟨?_, ?_, ?_, ?_, ?_⟩
  · intro hdown
    refine ⟨by simp [getTasks, Task.find, hdown], ?_, ?_, ?_, ?_, ?_, ?_⟩
    · simp only [postTasks, Draft.save]
      cases (Task.new sys (body.get "title")).validate <;> simp [hdown]
    · simp only [postTasks, Draft.save]
      cases (Task.new sys (body.get "title")).validate <;> simp [hdown]
    · simp only [patchTask, Task.findByIdAndUpdate]
      cases m.castObjectId id <;> cases castUpdate m (body.get "completed") <;> simp [hdown]
    · simp only [patchTask, Task.findByIdAndUpdate]
      cases m.castObjectId id <;> cases castUpdate m (body.get "completed") <;> simp [hdown]
    · simp only [deleteTask, Task.findByIdAndDelete]
      cases m.castObjectId id <;> simp [hdown]
    · simp only [deleteTask, Task.findByIdAndDelete]
      cases m.castObjectId id <;> simp [hdown]
  · intro hv
    simp [postTasks, Draft.save, hv]
  · intro hid
    constructor
    · simp [patchTask, Task.findByIdAndUpdate, hid]
    · simp [deleteTask, Task.findByIdAndDelete, hid]
  · rintro ⟨oid, hid⟩ hcast
    simp [patchTask, Task.findByIdAndUpdate, hid, hcast]
  · intro oid hid hnone hup
    constructor
    · intro hbody
      exact (unknown_id_not_found_aux m sys db id oid body hid hnone hbody hup).1
    · simp [deleteTask, Task.findByIdAndDelete, hid, hup, hnone]

theorem error_status_mapping_witness :
    getTasks (sysDown 3000 7) [milk] = ([milk], ⟨500, .error (.ofError .unavailable)⟩) ∧
      (postTasks (sysDown 3000 7) [milk] [("title", .str "Walk dog")]).2.status = 400 ∧
      (patchTask sampleMongoose (sysDown 3000 7) [milk] milkId
        [("title", .str "Walk dog")]).2.status = 400 ∧
      (deleteTask sampleMongoose (sysDown 3000 7) [milk] milkId).2.status = 400 :=
  have h := (error_status_mapping sampleMongoose (sysDown 3000 7) [milk] milkId
    [("title", .str "Walk dog")]).1 (by decide)
  ⟨h.1, h.2.2.1, h.2.2.2.2.1, h.2.2.2.2.2.2⟩

/-! ## Client flows -/

theorem loadTasks_taskInput {σ : Type} (net : Network σ) (s : σ) (page : Page) :
    (Client.loadTasks net s page).2.1.taskInput = page.taskInput := by
  unfold Client.loadTasks
  split
  · rfl
  · split <;> rfl

theorem loadTasks_reloads {σ : Type} (net : Network σ) (s : σ) (page : Page) :
    ∃ rest, (Client.loadTasks net s page).2.2 = Effect.fetch Request.get :: rest := by
  unfold Client.loadTasks
  split
  · exact ⟨_, rfl⟩
  · split <;> exact ⟨_, rfl⟩

theorem loadTasks_no_create {σ : Type} (net : Network σ) (s : σ) (page : Page) :
    ∀ e ∈ (Client.loadTasks net s page).2.2, e.isCreate = false := by
  unfold Client.loadTasks
  split
  · simp [Effect.isCreate]
  · split <;> simp [Effect.isCreate]

/-- The toggle flow against the API service, on the id of a stored task with the
storage reachable: the `PATCH` stores the negation of the value passed, the list is
reloaded and rendered. -/
theorem toggleTask_served (m : Mongoose) (db : List Task) (page : Page) (id : String)
    (oid : ObjectId) (t : Task) (v : Option Bool) (sysP sysG : Sys) (rest : List Sys)
    (pre post : List Task)
    (hid : m.castObjectId id = some oid) (ht : t._id = oid)
    (hpre : ∀ x ∈ pre, x._id ≠ oid) (hdb : db = pre ++ t :: post)
    (hupP : sysP.storageDown = false) (hupG : sysG.storageDown = false) :
    Client.toggleTask (serverNetwork m) (db, sysP :: sysG :: rest) page id v =
      ((pre ++ { t with completed := some (jsNot v) } :: post, rest),
        { page with taskList :=
            sortCreatedAtDesc (pre ++ { t with completed := some (jsNot v) } :: post) },
        [.fetch (Client.toggleRequest id v), .fetch .get]) := by
  have hfind : findById db oid = some t := by
    subst hdb
    simp only [findById]
    rw [List.find?_append, List.find?_eq_none.2 (by simpa using hpre)]
    simp [List.find?_cons, ht]
  have hupd := updateFirst_split oid (Update.setCompleted (some (jsNot v))).apply pre post t
    ht hpre
  have hpatch : patchTask m sysP db id [("completed", .bool (jsNot v))] =
      (pre ++ { t with completed := some (jsNot v) } :: post,
        ⟨200, .task { t with completed := some (jsNot v) }⟩) := by
    simp only [patchTask, Task.findByIdAndUpdate, hid, castUpdate, castBoolean, hupP, hfind,
      Bool.false_eq_true, if_false, JsonObject.get, List.lookup, beq_self_eq_true]
    rw [hdb, hupd]
    rfl
  simp [Client.toggleTask, Client.loadTasks, Client.toggleRequest, serverNetwork, handle,
    hpatch, getTasks, Task.find, hupG, Client.renderTasks]

/-- C8. Performing the toggle flow twice on a stored task, each time passing the
task's current `completed` value `c` (then `!c`), brings the collection back to
what it was: after the first flow the task has `completed = !c` and nothing else
in the collection has changed; after the second the collection equals the
original one.  (The storage is reachable for the four requests involved.) -/
theorem toggle_twice_restores (m : Mongoose) (db : List Task) (page : Page) (id : String)
    (oid : ObjectId) (t : Task) (c : Bool) (sys1 sys2 sys3 sys4 : Sys) (rest : List Sys)
    (hid : m.castObjectId id = some oid) (hfind : findById db oid = some t)
    (hc : t.completed = some c)
    (hup1 : sys1.storageDown = false) (hup2 : sys2.storageDown = false)
    (hup3 : sys3.storageDown = false) (hup4 : sys4.storageDown = false) :
    ∃ db1 page1 t1 pre post,
      Client.toggleTask (serverNetwork m) (db, sys1 :: sys2 :: sys3 :: sys4 :: rest) page id
          t.completed =
        ((db1, sys3 :: sys4 :: rest), page1,
          [.fetch (.patch id [("completed", .bool (!c))]), .fetch .get]) ∧
      db = pre ++ t :: post ∧ db1 = pre ++ t1 :: post ∧
      findById db1 oid = some t1 ∧ t1 = { t with completed := some (!c) } ∧
      Client.toggleTask (serverNetwork m) (db1, sys3 :: sys4 :: rest) page1 id t1.completed =
        ((db, rest), { page1 with taskList := sortCreatedAtDesc db },
          [.fetch (.patch id [("completed", .bool c)]), .fetch .get]) := by
  obtain ⟨ht, pre, post, hsplit, hpre⟩ := findById_some_split hfind
  have hstep1 := toggleTask_served m db page id oid t t.completed sys1 sys2
    (sys3 :: sys4 :: rest) pre post hid ht hpre hsplit hup1 hup2
  have hn1 : jsNot t.completed = !c := by rw [hc]; cases c <;> rfl
  have hn2 : jsNot (some (!c)) = c := by cases c <;> rfl
  rw [hn1] at hstep1
  have hstep2 := toggleTask_served m (pre ++ { t with completed := some (!c) } :: post)
    { page with taskList := sortCreatedAtDesc (pre ++ { t with completed := some (!c) } :: post) }
    id oid { t with completed := some (!c) } (some (!c)) sys3 sys4 rest pre post hid ht hpre
    rfl hup3 hup4
  rw [hn2] at hstep2
  have hback : ({ ({ t with completed := some (!c) } : Task) with completed := some c } : Task)
      = t := by
    cases t; simp at hc; simp [hc]
  refine ⟨pre ++ { t with completed := some (!c) } :: post,
    { page with taskList :=
        sortCreatedAtDesc (pre ++ { t with completed := some (!c) } :: post) },
    { t with completed := some (!c) }, pre, post, ?_, hsplit, rfl, ?_, rfl, ?_⟩
  · rw [hstep1]
    simp [Client.toggleRequest, hn1]
  · simp only [findById]
    rw [List.find?_append, List.find?_eq_none.2 (by simpa using hpre)]
    simp [List.find?_cons, ht]
  · rw [hstep2, hback, ← hsplit]
    simp [Client.toggleRequest, hn2]

theorem toggle_twice_restores_witness :
    ∃ db1 page1 t1 pre post,
      Client.toggleTask (serverNetwork sampleMongoose)
          ([bread, milk], [sysUp 3000 7, sysUp 3001 7, sysUp 3002 7, sysUp 3003 7])
          ⟨"", []⟩ milkId milk.completed =
        ((db1, [sysUp 3002 7, sysUp 3003 7]), page1,
          [.fetch (.patch milkId [("completed", .bool (!false))]), .fetch .get]) ∧
      [bread, milk] = pre ++ milk :: post ∧ db1 = pre ++ t1 :: post ∧
      findById db1 1 = some t1 ∧ t1 = { milk with completed := some (!false) } ∧
      Client.toggleTask (serverNetwork sampleMongoose) (db1, [sysUp 3002 7, sysUp 3003 7])
          page1 milkId t1.completed =
        (([bread, milk], []), { page1 with taskList := sortCreatedAtDesc [bread, milk] },
          [.fetch (.patch milkId [("completed", .bool false)]), .fetch .get]) :=
  toggle_twice_restores sampleMongoose [bread, milk] ⟨"", []⟩ milkId 1 milk false
    (sysUp 3000 7) (sysUp 3001 7) (sysUp 3002 7) (sysUp 3003 7) [] (by decide) (by decide)
    (by decide) (by decide) (by decide) (by decide) (by decide)

/-- C9. `addTask` issues a create request exactly when the trimmed input text is
non-empty; the body of that request is `{ title }` with the trimmed text; when
the response is successful the input is cleared and the list is reloaded; in
every other case (empty text, rejected call, unsuccessful response) the page is
left as it was and no reload is issued. -/
theorem addTask_contract {σ : Type} (net : Network σ) (s : σ) (page : Page) :
    ((∃ e ∈ (Client.addTask net s page).2.2, e.isCreate = true) ↔
        trim page.taskInput ≠ "") ∧
      (∀ body, Effect.fetch (.post body) ∈ (Client.addTask net s page).2.2 →
        body = [("title", .str (trim page.taskInput))]) ∧
      (∀ r, trim page.taskInput ≠ "" →
        (net s (Client.createRequest (trim page.taskInput))).2 = .resolved r → r.ok = true →
        (Client.addTask net s page).2.1.taskInput = "" ∧
        ∃ e ∈ (Client.addTask net s page).2.2, e.isReload = true) ∧
      ((trim page.taskInput = "" ∨
          (net s (Client.createRequest (trim page.taskInput))).2 = .rejected ∨
          ∃ r, (net s (Client.createRequest (trim page.taskInput))).2 = .resolved r ∧
            r.ok = false) →
        (Client.addTask net s page).2.1 = page ∧
        ∀ e ∈ (Client.addTask net s page).2.2, e.isReload = false) := by
  by_cases hempty : trim page.taskInput = ""
  · have hadd : Client.addTask net s page = (s, page, []) := by
      simp [Client.addTask, hempty]
    rw [hadd]
    simp [hempty]
  · rcases hnet : net s (Client.createRequest (trim page.taskInput)) with ⟨s', out⟩
    cases out with
    | rejected =>
      have hadd : Client.addTask net s page =
          (s', page, [.fetch (Client.createRequest (trim page.taskInput)), .log]) := by
        simp [Client.addTask, hempty, hnet]
      rw [hadd]
      simp [hempty, Effect.isCreate, Effect.isReload, Client.createRequest]
    | resolved r =>
      by_cases hok : r.ok = true
      · have hadd : Client.addTask net s page =
            ((Client.loadTasks net s' { page with taskInput := "" }).1,
              (Client.loadTasks net s' { page with taskInput := "" }).2.1,
              .fetch (Client.createRequest (trim page.taskInput)) ::
                (Client.loadTasks net s' { page with taskInput := "" }).2.2) := by
          simp [Client.addTask, hempty, hnet, hok]
        rw [hadd]
        have hin := loadTasks_taskInput net s' { page with taskInput := "" }
        obtain ⟨rest, hrest⟩ := loadTasks_reloads net s' { page with taskInput := "" }
        have hnc := loadTasks_no_create net s' { page with taskInput := "" }
        refine ⟨?_, ?_, ?_, ?_⟩
        · simp [hempty, Effect.isCreate, Client.createRequest]
        · intro body hb
          rcases List.mem_cons.1 hb with hb | hb
          · simpa [Client.createRequest] using hb
          · have := hnc _ hb
            simp [Effect.isCreate] at this
        · intro r' _ _ _
          exact ⟨hin, .fetch .get, by simp [hrest], rfl⟩
        · rintro (h | h | ⟨r', h, hr'⟩)
          · exact absurd h hempty
          · simp at h
          · simp only [FetchResult.resolved.injEq] at h
            subst h
            simp [hok] at hr'
      · have hadd : Client.addTask net s page =
            (s', page, [.fetch (Client.createRequest (trim page.taskInput))]) := by
          simp [Client.addTask, hempty, hnet, hok]
        rw [hadd]
        refine ⟨?_, ?_, ?_, ?_⟩
        · simp [hempty, Effect.isCreate, Client.createRequest]
        · intro body hb
          simpa [Client.createRequest] using hb
        · intro r' _ h hr'
          simp only [FetchResult.resolved.injEq] at h
          subst h
          exact absurd hr' hok
        · intro _
          simp [Effect.isReload, Client.createRequest]

theorem addTask_contract_witness :
    (Client.addTask (serverNetwork sampleMongoose) ([milk], [sysUp 3000 7, sysUp 3001 8])
        ⟨"  Walk dog ", [milk]⟩).2.1.taskInput = "" ∧
      ∃ e ∈ (Client.addTask (serverNetwork sampleMongoose)
          ([milk], [sysUp 3000 7, sysUp 3001 8]) ⟨"  Walk dog ", [milk]⟩).2.2,
        e.isReload = true :=
  (addTask_contract (serverNetwork sampleMongoose) ([milk], [sysUp 3000 7, sysUp 3001 8])
    ⟨"  Walk dog ", [milk]⟩).2.2.1 _ (by decide) rfl (by decide)

/-- C10, refuted as stated: a toggle and a delete that the server answers 404
are followed by a reload all the same, and the prior render (here an empty list)
is replaced by the reloaded one. -/
theorem toggle_reloads_after_404 :
    (serverNetwork sampleMongoose ([milk], [sysUp 3000 7, sysUp 3001 7])
        (Client.toggleRequest unknownId (some false))).2 =
        .resolved ⟨404, .error .taskNotFound⟩ ∧
      (Client.toggleTask (serverNetwork sampleMongoose) ([milk], [sysUp 3000 7, sysUp 3001 7])
        ⟨"", []⟩ unknownId (some false)).2.1 = ⟨"", [milk]⟩ ∧
      (∃ e ∈ (Client.toggleTask (serverNetwork sampleMongoose)
          ([milk], [sysUp 3000 7, sysUp 3001 7]) ⟨"", []⟩ unknownId (some false)).2.2,
        e.isReload = true) ∧
      (serverNetwork sampleMongoose ([milk], [sysUp 3000 7, sysUp 3001 7])
        (.delete unknownId)).2 = .resolved ⟨404, .error .taskNotFound⟩ ∧
      (∃ e ∈ (Client.deleteTask (serverNetwork sampleMongoose)
          ([milk], [sysUp 3000 7, sysUp 3001 7]) ⟨"", []⟩ unknownId).2.2,
        e.isReload = true) := by
  refine ⟨by decide, by decide, by decide, by decide, by decide⟩

/-- C10, amended.  In each mutation flow (add, toggle, delete) a rejected network
call is caught: no reload is issued and the page is left as it was.  In the add
flow the same holds when the server answers with an unsuccessful status. -/
theorem reload_conditions {σ : Type} (net : Network σ) (s : σ) (page : Page) (id : String)
    (completed : Option Bool) :
    ((net s (Client.createRequest (trim page.taskInput))).2 = .rejected →
        (Client.addTask net s page).2.1 = page ∧
        ∀ e ∈ (Client.addTask net s page).2.2, e.isReload = false) ∧
      (∀ r, (net s (Client.createRequest (trim page.taskInput))).2 = .resolved r →
        r.ok = false →
        (Client.addTask net s page).2.1 = page ∧
        ∀ e ∈ (Client.addTask net s page).2.2, e.isReload = false) ∧
      ((net s (Client.toggleRequest id completed)).2 = .rejected →
        (Client.toggleTask net s page id completed).2.1 = page ∧
        ∀ e ∈ (Client.toggleTask net s page id completed).2.2, e.isReload = false) ∧
      ((net s (.delete id)).2 = .rejected →
        (Client.deleteTask net s page id).2.1 = page ∧
        ∀ e ∈ (Client.deleteTask net s page id).2.2, e.isReload = false) := by
  refine ⟨?_, ?_, ?_, ?_⟩
  · intro h
    by_cases hempty : trim page.taskInput = ""
    · simp [Client.addTask, hempty]
    · rcases hnet : net s (Client.createRequest (trim page.taskInput)) with ⟨s', out⟩
      rw [hnet] at h
      simp only at h
      subst h
      have hadd : Client.addTask net s page =
          (s', page, [.fetch (Client.createRequest (trim page.taskInput)), .log]) := by
        simp [Client.addTask, hempty, hnet]
      rw [hadd]
      simp [Effect.isReload, Client.createRequest]
  · intro r h hok
    by_cases hempty : trim page.taskInput = ""
    · simp [Client.addTask, hempty]
    · rcases hnet : net s (Client.createRequest (trim page.taskInput)) with ⟨s', out⟩
      rw [hnet] at h
      simp only at h
      subst h
      have hadd : Client.addTask net s page =
          (s', page, [.fetch (Client.createRequest (trim page.taskInput))]) := by
        simp [Client.addTask, hempty, hnet, hok]
      rw [hadd]
      simp [Effect.isReload, Client.createRequest]
  · intro h
    rcases hnet : net s (Client.toggleRequest id completed) with ⟨s', out⟩
    rw [hnet] at h
    simp only at h
    subst h
    have hflow : Client.toggleTask net s page id completed =
        (s', page, [.fetch (Client.toggleRequest id completed), .log]) := by
      simp [Client.toggleTask, hnet]
    rw [hflow]
    simp [Effect.isReload, Client.toggleRequest]
  · intro h
    rcases hnet : net s (.delete id) with ⟨s', out⟩
    rw [hnet] at h
    simp only at h
    subst h
    have hflow : Client.deleteTask net s page id = (s', page, [.fetch (.delete id), .log]) := by
      simp [Client.deleteTask, hnet]
    rw [hflow]
    simp [Effect.isReload]

theorem reload_conditions_witness :
    (Client.toggleTask (serverNetwork sampleMongoose) ([milk], []) ⟨"tea", [bread]⟩ milkId
        (some false)).2.1 = ⟨"tea", [bread]⟩ ∧
      (Client.deleteTask (serverNetwork sampleMongoose) ([milk], []) ⟨"tea", [bread]⟩
        milkId).2.1 = ⟨"tea", [bread]⟩ ∧
      (Client.addTask (serverNetwork sampleMongoose) ([milk], []) ⟨"tea", [bread]⟩).2.1 =
        ⟨"tea", [bread]⟩ :=
  have h := reload_conditions (serverNetwork sampleMongoose) ([milk], []) ⟨"tea", [bread]⟩
    milkId (some false)
  ⟨(h.2.2.1 rfl).1, (h.2.2.2 rfl).1, (h.1 rfl).1⟩

/-- The toggle and delete flows reload the list after any response of the
server, whatever its status. -/
theorem toggle_delete_reload_after_response {σ : Type} (net : Network σ) (s : σ) (page : Page)
    (id : String) (completed : Option Bool) :
    (∀ r, (net s (Client.toggleRequest id completed)).2 = .resolved r →
        ∃ e ∈ (Client.toggleTask net s page id completed).2.2, e.isReload = true) ∧
      (∀ r, (net s (.delete id)).2 = .resolved r →
        ∃ e ∈ (Client.deleteTask net s page id).2.2, e.isReload = true) := by
  refine ⟨?_, ?_⟩
  · intro r h
    rcases hnet : net s (Client.toggleRequest id completed) with ⟨s', out⟩
    rw [hnet] at h
    simp only at h
    subst h
    obtain ⟨rest, hrest⟩ := loadTasks_reloads net s' page
    exact ⟨.fetch .get, by simp [Client.toggleTask, hnet, hrest], rfl⟩
  · intro r h
    rcases hnet : net s (.delete id) with ⟨s', out⟩
    rw [hnet] at h
    simp only at h
    subst h
    obtain ⟨rest, hrest⟩ := loadTasks_reloads net s' page
    exact ⟨.fetch .get, by simp [Client.deleteTask, hnet, hrest], rfl⟩

end TaskManager
